import Mathlib

set_option maxRecDepth 40000

/-!
Verification development for a small C++ HTTP/1.1 server
(buffered socket reader, HTTP message parser, worker-pool server).

The definitions below are a shallow embedding of the C++ sources:

* `HttpReader` (src/utils/http_reader.hpp): `read_until`, `read_fixed`,
  `read_chunked`, `refill_buffer`.  The reader state is `RState`; the byte
  stream delivered by the socket is modelled as the list of chunks that the
  successive `read(2)` calls return (each refill pops one chunk; an empty
  chunk list means end-of-stream, where `read` returns 0).  Every loop is
  written with an explicit fuel parameter, one unit per loop iteration of the
  C++ code; a result of `none` means the loop has not finished within the
  given fuel, and `(∀ fuel, ... = none)` proves the loop never finishes.
* `HttpMessage` (src/utils/http_reader.hpp, second part): `parse`,
  `parse_start_line`, `parse_headers`.
* `MultiThreadedTCPServer` constructor (multi_threaded_tcp_server.hpp):
  `num_threads_init`, `ctor_throws`.
* `TCPServer::handle_connection` (tcp.hpp) response assembly:
  `successHeadersWire`, `error500Wire`, `handle_connection_wire`
  (the model assumes `send_all` succeeds and records the bytes written).
* `Http::create` (Http.hpp): `Http.create`, `get_status_message`.

Machine integers (`size_t`, `unsigned long`) are modelled as `Nat`; the only
places where wrap-around matters are modelled explicitly
(`std::string::npos + 2` in `parse_headers_top`, negation in `stoulCore`).
-/

/-- State of a `HttpReader`: the pending refill chunks that future `read(2)`
calls will deliver, the buffer capacity (`buffer_.size()`, constant), the
currently valid buffer contents `buffer_[0, bufflen_)`, and the cursor
`pos_`.  Bytes of the vector beyond `bufflen_` are stale and never read by
the C++ code, so only the valid region is kept. -/
structure RState where
  chunks : List (List Char)
  cap : Nat
  buf : List Char
  pos : Nat
  deriving DecidableEq

/-- Default buffer size of `HttpReader` (16 KiB). -/
def DEFAULT_BUFSIZE : Nat := 16 * 1024

/-- `HttpReader::refill_buffer`: `pos_ = 0; n = read(fd_, ...); bufflen_ = n`.
One blocking read delivers the next chunk; at end-of-stream `read` returns 0,
modelled by an exhausted chunk list. -/
def refill_buffer (s : RState) : RState :=
  match s.chunks with
  | [] => { s with buf := [], pos := 0 }
  | c :: rest => { chunks := rest, cap := s.cap, buf := c, pos := 0 }

/-- Scan for the first occurrence of `needle` at indices `start, start+1, ...`
within `budget` candidate positions (model of `std::search` /
`std::string::find`). -/
def findSubGo (hay needle : List Char) : Nat → Nat → Option Nat
  | _, 0 => none
  | i, k+1 => if needle.isPrefixOf (hay.drop i) then some i else findSubGo hay needle (i+1) k

/-- First occurrence of `needle` in `hay` at an index `≥ start`
(`hay.find(needle, start)`); `none` models `std::string::npos`. -/
def findSubFrom (hay needle : List Char) (start : Nat) : Option Nat :=
  findSubGo hay needle start (hay.length + 1 - start)

/-- First occurrence of `needle` in `hay` (`hay.find(needle)` /
`std::search` over the window). -/
def findSub (hay needle : List Char) : Option Nat :=
  findSubFrom hay needle 0

/-- The byte sequence `"\r\n"`. -/
def crlf : List Char := ['\r', '\n']

/-- The byte sequence `"\r\n\r\n"`. -/
def crlf2 : List Char := ['\r', '\n', '\r', '\n']

/-- `HttpReader::read_until(delimiter)`.  One fuel unit per iteration of the
C++ `while (true)` loop: the iteration refills when `pos_ >= buffer_.size()`
(note: compared against the *capacity*), breaks at end-of-stream, scans the
valid window `buffer_[pos_, bufflen_)` with `std::search`, and on a miss
appends the window and forces a refill by setting `pos_ = buffer_.size()`. -/
def read_until : Nat → List Char → List Char → RState → Option (List Char × RState)
  | 0, _, _, _ => none
  | f+1, delim, acc, s =>
    if s.cap ≤ s.pos then
      let s1 := refill_buffer s
      if s1.buf = [] then some (acc, s1)
      else
        match findSub (s1.buf.drop s1.pos) delim with
        | some i =>
          some (acc ++ (s1.buf.drop s1.pos).take (i + delim.length),
                { s1 with pos := s1.pos + (i + delim.length) })
        | none => read_until f delim (acc ++ s1.buf.drop s1.pos) { s1 with pos := s1.cap }
    else
      match findSub (s.buf.drop s.pos) delim with
      | some i =>
        some (acc ++ (s.buf.drop s.pos).take (i + delim.length),
              { s with pos := s.pos + (i + delim.length) })
      | none => read_until f delim (acc ++ s.buf.drop s.pos) { s with pos := s.cap }

/-- Errors thrown by the reader/parser (all `std::runtime_error` or other
exceptions in the C++ code). -/
inductive RErr where
  | shortRead
  | invalidChunkSize
  | invalidHttpFormat
  | stoulError
  | resizeUnderflow
  deriving DecidableEq

deriving instance DecidableEq for Except

/-- `HttpReader::read_fixed(length)`.  One fuel unit per iteration of the
C++ `while (result.size() < length)` loop; the refill guard is
`pos_ >= buffer_.size()` (capacity, exactly as in the source), the copy step
takes `min(bufflen_ - pos_, length - result.size())` bytes, and after the
loop a short result throws `"Short read"`. -/
def read_fixed : Nat → Nat → List Char → RState → Option (Except RErr (List Char × RState))
  | 0, _, _, _ => none
  | f+1, len, acc, s =>
    if acc.length < len then
      if s.cap ≤ s.pos then
        let s1 := refill_buffer s
        if s1.buf = [] then some (.error .shortRead)
        else
          read_fixed f len
            (acc ++ (s1.buf.drop s1.pos).take (min (s1.buf.length - s1.pos) (len - acc.length)))
            { s1 with pos := s1.pos + min (s1.buf.length - s1.pos) (len - acc.length) }
      else
        read_fixed f len
          (acc ++ (s.buf.drop s.pos).take (min (s.buf.length - s.pos) (len - acc.length)))
          { s with pos := s.pos + min (s.buf.length - s.pos) (len - acc.length) }
    else some (if acc.length = len then .ok (acc, s) else .error .shortRead)

/-- C-locale `isspace`, used by `strtoul` under `std::stoul`. -/
def isSpaceC (c : Char) : Bool :=
  c = ' ' || c = '\t' || c = '\n' || c = '\x0b' || c = '\x0c' || c = '\r'

/-- Value of a hexadecimal digit character, else `none`. -/
def hexDigitVal (c : Char) : Option Nat :=
  if '0' ≤ c ∧ c ≤ '9' then some (c.toNat - '0'.toNat)
  else if 'a' ≤ c ∧ c ≤ 'f' then some (c.toNat - 'a'.toNat + 10)
  else if 'A' ≤ c ∧ c ≤ 'F' then some (c.toNat - 'A'.toNat + 10)
  else none

/-- Value of a decimal digit character, else `none`. -/
def decDigitVal (c : Char) : Option Nat :=
  if '0' ≤ c ∧ c ≤ '9' then some (c.toNat - '0'.toNat) else none

/-- `ULONG_MAX` on a 64-bit platform. -/
def ULONG_MAX : Nat := 2 ^ 64 - 1

/-- Model of `std::stoul(s, nullptr, base)` (i.e. `strtoul`): skip C
whitespace, accept an optional sign, for base 16 accept an optional `0x`/`0X`
prefix when followed by a hex digit, consume the maximal digit run, and
ignore everything after it.  `none` models a thrown exception: no digits at
all (`std::invalid_argument`) or a converted value above `ULONG_MAX`
(`std::out_of_range`).  A `-` sign negates modulo 2^64, as `strtoul` does. -/
def stoulCore (base : Nat) (digitVal : Char → Option Nat) (allowHexPrefix : Bool)
    (s : List Char) : Option Nat :=
  let s1 := s.dropWhile isSpaceC
  let signed : Bool × List Char :=
    match s1 with
    | '-' :: r => (true, r)
    | '+' :: r => (false, r)
    | _ => (false, s1)
  let s2 := signed.2
  let s3 :=
    if allowHexPrefix then
      match s2 with
      | '0' :: 'x' :: c :: r => if (digitVal c).isSome then c :: r else s2
      | '0' :: 'X' :: c :: r => if (digitVal c).isSome then c :: r else s2
      | _ => s2
    else s2
  let digits := s3.takeWhile (fun c => (digitVal c).isSome)
  if digits.isEmpty then none
  else
    let v := digits.foldl (fun a c => a * base + ((digitVal c).getD 0)) 0
    if ULONG_MAX < v then none
    else some (if signed.1 then (2 ^ 64 - v) % 2 ^ 64 else v)

/-- `std::stoul(line, nullptr, 16)` as used for chunk-size lines. -/
def stoul16 (s : List Char) : Option Nat := stoulCore 16 hexDigitVal true s

/-- `std::stoul(value)` (base 10) as used for the content-length value. -/
def stoul10 (s : List Char) : Option Nat := stoulCore 10 decDigitVal false s

/-- `HttpReader::read_chunked()`.  One fuel unit per iteration of the outer
chunk loop; the inner `read_until`/`read_fixed` calls receive the current
fuel.  `line.resize(line.size() - 2)` underflows `size_t` when the size line
is shorter than 2 bytes and `resize` then throws (`resizeUnderflow`); only
the `std::stoul` call is inside the `try`, so only a failed parse yields
`"Invalid chunk size"`. -/
def read_chunked : Nat → List Char → RState → Option (Except RErr (List Char × RState))
  | 0, _, _ => none
  | f+1, body, s =>
    match read_until (f+1) crlf [] s with
    | none => none
    | some (lineRaw, s1) =>
      if lineRaw.length < 2 then some (.error .resizeUnderflow)
      else
        let line := lineRaw.take (lineRaw.length - 2)
        match stoul16 line with
        | none => some (.error .invalidChunkSize)
        | some n =>
          if n = 0 then
            match read_until (f+1) crlf [] s1 with
            | none => none
            | some (_, s2) => some (.ok (body, s2))
          else
            match read_fixed (f+1) n [] s1 with
            | none => none
            | some (.error e) => some (.error e)
            | some (.ok (chunk, s2)) =>
              match read_until (f+1) crlf [] s2 with
              | none => none
              | some (_, s3) => read_chunked f (body ++ chunk) s3

/-- `std::tolower` on an unsigned char in the C locale: only `A`-`Z` move. -/
def toLowerAscii (c : Char) : Char :=
  if 'A' ≤ c ∧ c ≤ 'Z' then Char.ofNat (c.toNat + 32) else c

/-- Membership in the set `" \t"` used by the header trimming calls. -/
def isHWS (c : Char) : Bool := c = ' ' || c = '\t'

/-- `s.find_first_not_of(" \t")`; `none` models `npos`. -/
def findFirstNotHWS (l : List Char) : Option Nat :=
  l.findIdx? (fun c => !(isHWS c))

/-- `value.erase(0, value.find_first_not_of(" \t"))`: removes the leading
whitespace; when every character is whitespace, `erase(0, npos)` removes
everything. -/
def trimLeadingHWS (l : List Char) : List Char :=
  match findFirstNotHWS l with
  | none => []
  | some i => l.drop i

/-- `s.find_last_not_of(" \t")` (computed through the reversed list);
`none` models `npos`. -/
def findLastNotHWS (l : List Char) : Option Nat :=
  match findFirstNotHWS l.reverse with
  | none => none
  | some i => some (l.length - 1 - i)

/-- `key.erase(key.find_last_not_of(" \t") + 1)`: keeps the prefix up to and
including the last non-whitespace character; for an all-whitespace string
`npos + 1 = 0` and everything is erased. -/
def trimTrailingHWS (l : List Char) : List Char :=
  match findLastNotHWS l with
  | none => []
  | some i => l.take (i + 1)

/-- `line.find(':')`: index of the first colon. -/
def findCharIdx : List Char → Char → Option Nat
  | [], _ => none
  | c :: r, t => if c = t then some 0 else (findCharIdx r t).map (fun j => j + 1)

/-- Body of one iteration of `HttpMessage::parse_headers` on a non-empty
line: split at the first `:` (`none` when there is no colon), lowercase the
key, trim trailing whitespace from the key and leading whitespace from the
value — exactly the transformations of the source, in source order. -/
def processHeaderLine (line : List Char) : Option (List Char × List Char) :=
  match findCharIdx line ':' with
  | none => none
  | some colon =>
    some (trimTrailingHWS ((line.take colon).map toLowerAscii),
          trimLeadingHWS (line.drop (colon + 1)))

/-- `std::map<std::string, std::string>` as used for headers, modelled as an
association list with unique keys; only lookup and insert-or-assign
behaviour is relevant (the sortedness of `std::map` is not observed). -/
abbrev Headers := List (List Char × List Char)

/-- `m.count(k) > 0`. -/
def mapContains (m : Headers) (k : List Char) : Bool :=
  m.any (fun kv => kv.1 = k)

/-- Lookup, `m[k]` for a present key. -/
def mapFind (m : Headers) (k : List Char) : Option (List Char) :=
  (m.find? (fun kv => kv.1 = k)).map Prod.snd

/-- `m[k]` where the key is known to be present (guarded by `count` in the
source); defaults to the empty string otherwise. -/
def mapFindD (m : Headers) (k : List Char) : List Char :=
  (mapFind m k).getD []

/-- `m[k] = v`: assign when present, insert otherwise (last write wins). -/
def mapInsert (m : Headers) (k v : List Char) : Headers :=
  if mapContains m k then m.map (fun kv => if kv.1 = k then (k, v) else kv)
  else m ++ [(k, v)]

/-- Loop of `HttpMessage::parse_headers`.  One fuel unit per iteration of the
C++ `while (start < data.size())` loop.  Note the `continue` on a line with
no colon leaves `start` unchanged, exactly as in the source. -/
def parse_headers : Nat → List Char → Nat → Headers → Option Headers
  | 0, _, _, _ => none
  | f+1, data, start, hs =>
    if start < data.length then
      match findSubFrom data crlf start with
      | none => some hs
      | some e =>
        let line := (data.drop start).take (e - start)
        if line = [] then some hs
        else
          match processHeaderLine line with
          | none => parse_headers f data start hs
          | some (k, v) => parse_headers f data (e + 2) (mapInsert hs k v)
    else some hs

/-- `HttpMessage::parse_headers` entry: `size_t start = data.find("\r\n") + 2`.
When there is no CRLF, `npos + 2` wraps to `1` in `size_t` arithmetic
(`(2^64 - 1 + 2) % 2^64 = 1`). -/
def parse_headers_top (f : Nat) (data : List Char) : Option Headers :=
  let start :=
    match findSub data crlf with
    | some i => i + 2
    | none => 1
  parse_headers f data start []

/-- `HttpMessage::parse_start_line`: everything before the first CRLF;
`none` models the thrown `"Invalid HTTP format"`. -/
def parse_start_line (data : List Char) : Option (List Char) :=
  match findSub data crlf with
  | none => none
  | some e => some (data.take e)

/-- The struct `HttpMessage`. -/
structure HttpMessage where
  start_line : List Char
  headers : Headers
  body : List Char
  deriving DecidableEq

/-- Body-framing selection of `HttpMessage::parse` (step 2 of the source):
if a `transfer-encoding` header is present, read chunked only when it equals
`chunked` (otherwise the body stays empty — the `else if` on
`content-length` is not reached); else if `content-length` is present, parse
it with `std::stoul` and read that many bytes; else the body stays empty. -/
def selectBody (f : Nat) (hs : Headers) (s : RState) : Option (Except RErr (List Char)) :=
  if mapContains hs ("transfer-encoding".toList) then
    if mapFindD hs ("transfer-encoding".toList) = "chunked".toList then
      match read_chunked f [] s with
      | none => none
      | some (.error e) => some (.error e)
      | some (.ok (b, _)) => some (.ok b)
    else some (.ok [])
  else if mapContains hs ("content-length".toList) then
    match stoul10 (mapFindD hs ("content-length".toList)) with
    | none => some (.error .stoulError)
    | some n =>
      match read_fixed f n [] s with
      | none => none
      | some (.error e) => some (.error e)
      | some (.ok (b, _)) => some (.ok b)
  else some (.ok [])

/-- `HttpMessage::parse(fd)`: build a fresh `HttpReader` (empty buffer,
cursor 0, capacity `DEFAULT_BUFSIZE` in the source — kept as a parameter
here), read the header block up to `"\r\n\r\n"`, parse the start line and the
headers, then read the body according to the headers.  `none` means some
loop inside did not finish within the fuel. -/
def HttpMessage.parse (f : Nat) (cap : Nat) (chunks : List (List Char)) :
    Option (Except RErr HttpMessage) :=
  match read_until f crlf2 [] ⟨chunks, cap, [], 0⟩ with
  | none => none
  | some (headersStr, s1) =>
    match parse_start_line headersStr with
    | none => some (.error .invalidHttpFormat)
    | some sl =>
      match parse_headers_top f headersStr with
      | none => none
      | some hs =>
        match selectBody f hs s1 with
        | none => none
        | some (.error er) => some (.error er)
        | some (.ok b) => some (.ok ⟨sl, hs, b⟩)

/-- `MultiThreadedTCPServer` constructor: the member initializer
`num_threads(threads > 0 ? threads : 4)`. -/
def num_threads_init (threads : Nat) : Nat :=
  if 0 < threads then threads else 4

/-- The constructor body check
`if (this->num_threads == 0) throw std::runtime_error(...)`. -/
def ctor_throws (threads : Nat) : Bool :=
  num_threads_init threads == 0

/-- Decimal rendering of a `size_t` (`std::to_string`). -/
def natChars (n : Nat) : List Char := (toString n).toList

/-- Decimal rendering of an `int` (`std::to_string`). -/
def intChars (n : Int) : List Char := (toString n).toList

/-- The response header block built by `TCPServer::handle_connection` on the
success path (adjacent string literals concatenated, then
`std::to_string(body_to_send.size())` spliced in). -/
def successHeadersWire (bodyLen : Nat) : List Char :=
  ("HTTP/1.1 200 OK\r\nContent-Type: text/plain\r\nContent-Length: ".toList
      ++ natChars bodyLen)
    ++ "\r\nConnection: close\r\n\r\n".toList

/-- Bytes written on the success path: the header block, then the echoed
body (`send_all(headers)` followed by `send_all(body)`). -/
def successResponseWire (body : List Char) : List Char :=
  successHeadersWire body.length ++ body

/-- The fixed best-effort error response written from the `catch` blocks of
`TCPServer::handle_connection`.  Note it has no `Content-Type` header. -/
def error500Wire : List Char :=
  "HTTP/1.1 500 Internal Server Error\r\nContent-Length: 0\r\nConnection: close\r\n\r\n".toList

/-- `TCPServer::handle_connection` viewed as the bytes it writes to the
socket (assuming the sends succeed): on a parsed request, the 200 response
echoing the body; on any parse error, the fixed 500 response; `none` when
parsing never terminates. -/
def handle_connection_wire (f cap : Nat) (chunks : List (List Char)) : Option (List Char) :=
  match HttpMessage.parse f cap chunks with
  | none => none
  | some (.ok msg) => some (successResponseWire msg.body)
  | some (.error _) => some error500Wire

/-- `Http::get_status_message`. -/
def get_status_message (status : Int) : List Char :=
  if status = 200 then "OK".toList
  else if status = 400 then "Bad Request".toList
  else if status = 404 then "Not Found".toList
  else if status = 500 then "Internal Server Error".toList
  else "Unknown".toList

/-- `Http::create` (Http.hpp). -/
def Http.create (status : Int) (content : List Char)
    (contentType : List Char := "text/plain".toList) (extra : Headers := []) : List Char :=
  ("HTTP/1.1 ".toList ++ intChars status ++ " ".toList ++ get_status_message status ++ crlf)
    ++ ("Content-Type: ".toList ++ contentType ++ crlf)
    ++ ("Content-Length: ".toList ++ natChars content.length ++ crlf)
    ++ "Connection: close\r\n".toList
    ++ extra.foldl (fun acc kv => acc ++ kv.1 ++ ": ".toList ++ kv.2 ++ crlf) []
    ++ crlf ++ content

/-- Modelled from the spec and claim wording (refinement target, not source
code): the response shape asserted by the specification,
`HTTP/1.1 <status> <reason>\r\nContent-Type: text/plain\r\nContent-Length:
<n>\r\nConnection: close\r\n\r\n<body>` with `<n>` the body length. -/
def claimResponseForm (status : Int) (reason : List Char) (body : List Char) : List Char :=
  ("HTTP/1.1 ".toList
      ++ (intChars status
        ++ (" ".toList
          ++ (reason ++ "\r\nContent-Type: text/plain\r\nContent-Length: ".toList))))
    ++ (natChars body.length ++ ("\r\nConnection: close\r\n\r\n".toList ++ body))

/-- Lowercase hex digit character. -/
def hexDigitChar (d : Nat) : Char :=
  if d < 10 then Char.ofNat ('0'.toNat + d) else Char.ofNat ('a'.toNat + d - 10)

/-- Hex digits of `n` (auxiliary, fuelled by `n` itself). -/
def hexCharsAux : Nat → Nat → List Char
  | 0, _ => []
  | f+1, n => if n = 0 then [] else hexCharsAux f (n / 16) ++ [hexDigitChar (n % 16)]

/-- Lowercase hexadecimal rendering of `n`. -/
def hexChars (n : Nat) : List Char :=
  if n = 0 then ['0'] else hexCharsAux n n

/-- The chunked encoding described by the spec: a single
`"<hex-size>\r\n<data>\r\n"` chunk (omitted for an empty body) terminated by
`"0\r\n\r\n"`. -/
def encodeChunked (body : List Char) : List Char :=
  if body = [] then "0\r\n\r\n".toList
  else hexChars body.length ++ crlf ++ body ++ crlf ++ "0\r\n\r\n".toList

/-- Decode a chunked stream with a fresh reader, keeping only the body. -/
def decodeChunkedStream (f cap : Nat) (chunks : List (List Char)) :
    Option (Except RErr (List Char)) :=
  match read_chunked f [] ⟨chunks, cap, [], 0⟩ with
  | none => none
  | some (.error e) => some (.error e)
  | some (.ok (b, _)) => some (.ok b)

/-- Header block used for the termination counterexample: a well-formed
start line followed by the non-empty line `foo` that contains no colon. -/
def c7data : List Char := "GET / X\r\nfoo\r\n\r\n".toList

/-- Header block with a `transfer-encoding` other than `chunked` next to a
`content-length`. -/
def c2hdrTE : List Char :=
  "POST / H\r\nTransfer-Encoding: gzip\r\nContent-Length: 5\r\n\r\n".toList

/-- Header block with only a `content-length`. -/
def c2hdrCL : List Char := "POST / H\r\nContent-Length: 5\r\n\r\n".toList

/-! ## Helper lemmas -/

/-- A non-empty needle is never found in an empty haystack. -/
theorem findSub_nil {d : List Char} (hd : d ≠ []) : findSub [] d = none := by
  cases d with
  | nil => exact absurd rfl hd
  | cons c r => rfl

/-- A fresh reader (`pos_ = 0`, `bufflen_ = 0`) running `read_until` scans an
empty window, forces a refill, and finds the delimiter inside the first
delivered chunk at index `i`: the first two loop iterations fully determine
the result. -/
theorem read_until_fresh_found (f cap i : Nat) (d L : List Char) (rest : List (List Char))
    (hcap : 0 < cap) (hd : d ≠ []) (hL : L ≠ []) (hfind : findSub L d = some i) :
    read_until (f+1+1) d [] ⟨L :: rest, cap, [], 0⟩
      = some (L.take (i + d.length), ⟨rest, cap, L, i + d.length⟩) := by
  have h0 : ¬ (cap ≤ 0) := by omega
  simp only [read_until, h0, if_false, List.drop_zero, List.drop_nil, findSub_nil hd,
    List.append_nil, List.nil_append, le_refl, if_true, refill_buffer, if_neg hL, hfind,
    Nat.zero_add]

/-- When the copy loop of `read_fixed` reaches a state with an exhausted
valid window (`pos_ ≥ bufflen_`) while `pos_` is still below the buffer
capacity and bytes are still needed, the iteration copies zero bytes and
never refills: the loop runs forever. -/
theorem read_fixed_stuck (f len : Nat) (acc : List Char) (s : RState)
    (ha : acc.length < len) (hp : s.pos < s.cap) (hb : s.buf.length ≤ s.pos) :
    read_fixed f len acc s = none := by
  induction f with
  | zero => rfl
  | succ g ih =>
    have h0 : s.buf.length - s.pos = 0 := by omega
    have hc : ¬ (s.cap ≤ s.pos) := by omega
    simp only [read_fixed, if_pos ha, hc, if_false, h0, Nat.zero_min, List.take_zero,
      List.append_nil, Nat.add_zero]
    exact ih

/-- When the whole request lies inside the current valid window, one copy
iteration of `read_fixed` delivers exactly `n` bytes. -/
theorem read_fixed_one_window (f n : Nat) (s : RState) (hn : 0 < n)
    (hp : s.pos < s.cap) (hr : s.pos + n ≤ s.buf.length) :
    read_fixed (f+1+1) n [] s
      = some (.ok ((s.buf.drop s.pos).take n, { s with pos := s.pos + n })) := by
  have hc : ¬ (s.cap ≤ s.pos) := by omega
  have hm : min (s.buf.length - s.pos) (n - 0) = n := by
    rw [Nat.sub_zero]
    exact Nat.min_eq_right (by omega)
  have hl : ((s.buf.drop s.pos).take n).length = n := by
    simp only [List.length_take, List.length_drop]
    omega
  simp only [read_fixed, List.length_nil, hn, if_pos, hc, if_false, List.nil_append, hm, hl,
    lt_self_iff_false, if_true]

/-- Unfolding of `HttpMessage.parse` along a successful path. -/
theorem parse_unfolds (f cap : Nat) (chunks : List (List Char)) (hstr sl b : List Char)
    (s1 : RState) (hs : Headers)
    (h1 : read_until f crlf2 [] ⟨chunks, cap, [], 0⟩ = some (hstr, s1))
    (h2 : parse_start_line hstr = some sl)
    (h3 : parse_headers_top f hstr = some hs)
    (h4 : selectBody f hs s1 = some (.ok b)) :
    HttpMessage.parse f cap chunks = some (.ok ⟨sl, hs, b⟩) := by
  simp only [HttpMessage.parse, h1, h2, h3, h4]

/-- Branch of `selectBody`: a `transfer-encoding` header with a value other
than `chunked` leaves the body empty (the `content-length` branch is not
reached). -/
theorem selectBody_te_other (f : Nat) (hs : Headers) (s : RState)
    (h1 : mapContains hs ("transfer-encoding".toList) = true)
    (h2 : mapFindD hs ("transfer-encoding".toList) ≠ "chunked".toList) :
    selectBody f hs s = some (.ok []) := by
  simp only [selectBody, h1, if_true, if_neg h2]

/-- Branch of `selectBody`: `transfer-encoding: chunked` decodes through
`read_chunked`. -/
theorem selectBody_te_chunked (f : Nat) (hs : Headers) (s s2 : RState) (b : List Char)
    (h1 : mapContains hs ("transfer-encoding".toList) = true)
    (h2 : mapFindD hs ("transfer-encoding".toList) = "chunked".toList)
    (h3 : read_chunked f [] s = some (.ok (b, s2))) :
    selectBody f hs s = some (.ok b) := by
  simp only [selectBody, h1, if_true, h2, if_pos, h3]

/-- Branch of `selectBody`: no `transfer-encoding`, a `content-length` that
parses to `n`, and a successful `read_fixed`. -/
theorem selectBody_cl (f n : Nat) (hs : Headers) (s s2 : RState) (b : List Char)
    (h1 : mapContains hs ("transfer-encoding".toList) = false)
    (h2 : mapContains hs ("content-length".toList) = true)
    (h3 : stoul10 (mapFindD hs ("content-length".toList)) = some n)
    (h4 : read_fixed f n [] s = some (.ok (b, s2))) :
    selectBody f hs s = some (.ok b) := by
  simp only [selectBody, h1, Bool.false_eq_true, if_false, h2, if_true, h3, h4]

/-- Branch of `selectBody`: neither framing header present. -/
theorem selectBody_none (f : Nat) (hs : Headers) (s : RState)
    (h1 : mapContains hs ("transfer-encoding".toList) = false)
    (h2 : mapContains hs ("content-length".toList) = false) :
    selectBody f hs s = some (.ok []) := by
  simp only [selectBody, h1, h2, Bool.false_eq_true, if_false]

/-- Unfolding of one `read_chunked` iteration whose `read_fixed` call never
returns: the whole decode never returns. -/
theorem read_chunked_none_of_fixed_none (f : Nat) (body : List Char) (s s1 : RState)
    (lineRaw : List Char) (n : Nat)
    (h1 : read_until (f+1) crlf [] s = some (lineRaw, s1))
    (h2 : ¬ lineRaw.length < 2)
    (h3 : stoul16 (lineRaw.take (lineRaw.length - 2)) = some n)
    (h4 : n ≠ 0)
    (h5 : read_fixed (f+1) n [] s1 = none) :
    read_chunked (f+1) body s = none := by
  simp only [read_chunked, h1, if_neg h2, h3, if_neg h4, h5]

/-- Unfolding of one `read_chunked` iteration whose size line fails
`std::stoul`: the decode throws `"Invalid chunk size"`. -/
theorem read_chunked_invalid_of_stoul_none (f : Nat) (body : List Char) (s s1 : RState)
    (lineRaw : List Char)
    (h1 : read_until (f+1) crlf [] s = some (lineRaw, s1))
    (h2 : ¬ lineRaw.length < 2)
    (h3 : stoul16 (lineRaw.take (lineRaw.length - 2)) = none) :
    read_chunked (f+1) body s = some (.error .invalidChunkSize) := by
  simp only [read_chunked, h1, if_neg h2, h3]

/-! ## Claim theorems -/

/-- C1: the claim says `read_until(delimiter)` returns the prefix of the byte
stream up to and including the first occurrence of the delimiter for *every*
split of the stream into refills.  It is false: `std::search` only scans one
refill window at a time, so a delimiter that straddles a refill boundary is
missed.  Concretely, for the stream `"a\r\n\r\nb"` delivered as the refills
`"a\r"` and `"\n\r\nb"`, the delimiter `"\r\n\r\n"` occurs at offset 1 and
the claim demands the 5-byte prefix `"a\r\n\r\n"`, but `read_until` consumes
the whole stream to end-of-stream and returns all 7 bytes. -/
theorem c1_read_until_misses_straddling_delimiter :
    read_until 20 crlf2 [] ⟨["a\r".toList, "\n\r\nb".toList], DEFAULT_BUFSIZE, [], 0⟩
      = some ("a\r\n\r\nb".toList, ⟨[], DEFAULT_BUFSIZE, [], 0⟩)
    ∧ findSub (List.flatten ["a\r".toList, "\n\r\nb".toList]) crlf2 = some 1
    ∧ ("a\r\n\r\nb".toList : List Char)
        ≠ (List.flatten ["a\r".toList, "\n\r\nb".toList]).take (1 + crlf2.length) := by
  exact ⟨by decide, by decide, by decide⟩

/-- C4: the claim says a worker-thread count of zero raises a fatal
configuration error at construction and is never silently replaced.  It is
false on the code: the member initializer `threads > 0 ? threads : 4`
replaces 0 by 4 before the `num_threads == 0` check runs, so the check is
dead code and the constructor never throws, for any thread count. -/
theorem c4_zero_threads_silently_replaced :
    num_threads_init 0 = 4 ∧ ctor_throws 0 = false
    ∧ ∀ t : Nat, ctor_throws t = false := by
  refine ⟨rfl, rfl, ?_⟩
  intro t
  cases t with
  | zero => rfl
  | succ n => simp [ctor_throws, num_threads_init]

/-- C6: the claim says `read_fixed(n)` returns exactly `n` bytes whenever at
least `n` bytes are available, for every stream and split.  It is false: on a
fresh reader (`pos_ = 0`, `bufflen_ = 0`) the refill guard
`pos_ >= buffer_.size()` compares against the 16 KiB capacity, so no refill
ever happens, the copy step copies `min(0 - 0, n)` = 0 bytes, and the loop
runs forever — even for a stream that has the 5 requested bytes ready. -/
theorem c6_read_fixed_never_terminates :
    (∀ f : Nat, read_fixed f 5 [] ⟨["hello".toList], DEFAULT_BUFSIZE, [], 0⟩ = none)
    ∧ (List.flatten ["hello".toList]).length = 5 := by
  refine ⟨?_, by decide⟩
  intro f
  exact read_fixed_stuck f 5 [] _ (by decide) (by decide) (by decide)

/-- C7: the claim says parsing terminates on every input, including a header
block with a non-empty colon-less line.  It is false: on the header block
`"GET / X\r\nfoo\r\n\r\n"` (which `read_until` does deliver for that stream,
second conjunct), `parse_headers` reaches the line `"foo"`, finds no colon,
and executes `continue` without advancing `start` — the loop re-reads the
same line forever, for every fuel bound. -/
theorem c7_parse_headers_never_terminates :
    (∀ f : Nat, parse_headers_top f c7data = none)
    ∧ read_until 9 crlf2 [] ⟨[c7data], DEFAULT_BUFSIZE, [], 0⟩
        = some (c7data, ⟨[], DEFAULT_BUFSIZE, c7data, 16⟩) := by
  refine ⟨?_, by decide⟩
  intro f
  induction f with
  | zero => rfl
  | succ g ih => exact ih

/-- C9: the claim says the chunked round-trip (encode as
`"<hex-size>\r\n<data>\r\n"` chunks plus `"0\r\n\r\n"`, then decode with
`read_chunked`) reproduces every body for every split into refills.  It is
false: for the body `"A"`, whose encoding is `"1\r\nA\r\n0\r\n\r\n"`
(first conjunct), the split into refills `"1\r\n"` and `"A\r\n0\r\n\r\n"`
leaves the reader at `pos_ = bufflen_ = 3 < capacity` after the size line,
so the inner `read_fixed(1)` never refills and loops forever: `read_chunked`
never returns, for every fuel bound. -/
theorem c9_chunked_roundtrip_never_terminates :
    encodeChunked ['A'] = "1\r\nA\r\n0\r\n\r\n".toList
    ∧ ∀ f : Nat, read_chunked f []
        ⟨["1\r\n".toList, "A\r\n0\r\n\r\n".toList], DEFAULT_BUFSIZE, [], 0⟩ = none := by
  refine ⟨by decide, ?_⟩
  intro f
  match f with
  | 0 => rfl
  | 1 => rfl
  | (g+1+1) =>
    have hru : read_until (g+1+1) crlf []
        ⟨["1\r\n".toList, "A\r\n0\r\n\r\n".toList], DEFAULT_BUFSIZE, [], 0⟩
        = some ("1\r\n".toList,
            ⟨["A\r\n0\r\n\r\n".toList], DEFAULT_BUFSIZE, "1\r\n".toList, 3⟩) := by
      rw [read_until_fresh_found g DEFAULT_BUFSIZE 1 crlf ("1\r\n".toList)
        ["A\r\n0\r\n\r\n".toList] (by decide) (by decide) (by decide) (by decide)]
      decide
    exact read_chunked_none_of_fixed_none (g+1) [] _ _ _ 1 hru (by decide) (by decide)
      (by decide)
      (read_fixed_stuck (g+1+1) 1 []
        ⟨["A\r\n0\r\n\r\n".toList], DEFAULT_BUFSIZE, "1\r\n".toList, 3⟩
        (by decide) (by decide) (by decide))

/-- Appending a fresh binding is found by lookup when the key was absent. -/
theorem mapFind_append_single (m : Headers) (k v : List Char)
    (h : mapContains m k = false) : mapFind (m ++ [(k, v)]) k = some v := by
  induction m with
  | nil => simp [mapFind, List.find?]
  | cons a m ih =>
    simp only [mapContains, List.any_cons, Bool.or_eq_false_iff] at h
    simp only [List.cons_append, mapFind, List.find?, h.1]
    exact ih h.2

/-- Reassigning every binding of a present key to `v` is found by lookup. -/
theorem mapFind_map_assign (m : Headers) (k v : List Char)
    (h : mapContains m k = true) :
    mapFind (m.map (fun kv => if kv.1 = k then (k, v) else kv)) k = some v := by
  induction m with
  | nil => simp [mapContains] at h
  | cons a m ih =>
    by_cases ha : a.1 = k
    · simp [mapFind, List.find?, ha]
    · have h' : mapContains m k = true := by
        simp only [mapContains, List.any_cons, Bool.or_eq_true] at h
        rcases h with h | h
        · exact absurd (of_decide_eq_true h) ha
        · exact h
      simp only [List.map_cons, if_neg ha, mapFind, List.find?, decide_eq_false ha]
      exact ih h'

/-- `m[k] = v` (insert-or-assign) always wins the subsequent lookup of `k`. -/
theorem mapFind_mapInsert (m : Headers) (k v : List Char) :
    mapFind (mapInsert m k v) k = some v := by
  cases h : mapContains m k with
  | true =>
    simp only [mapInsert, h, if_true]
    exact mapFind_map_assign m k v h
  | false =>
    simp only [mapInsert, h, Bool.false_eq_true, if_false]
    exact mapFind_append_single m k v h

/-- `line.find(':')` on `k ++ ":" ++ v` yields the split point when `k` is
colon-free. -/
theorem findCharIdx_append (k v : List Char) (hk : findCharIdx k ':' = none) :
    findCharIdx (k ++ ':' :: v) ':' = some k.length := by
  induction k with
  | nil => simp [findCharIdx]
  | cons c k' ih =>
    simp only [findCharIdx] at hk
    by_cases hc : c = ':'
    · rw [if_pos hc] at hk
      cases hk
    · rw [if_neg hc] at hk
      have hk' : findCharIdx k' ':' = none := by
        cases hfc : findCharIdx k' ':' with
        | none => rfl
        | some j => rw [hfc] at hk; cases hk
      simp only [List.cons_append, findCharIdx, if_neg hc, List.append_eq, ih hk',
        List.length_cons]
      rfl

/-- C3 counterexample: the claim says both key and value are trimmed of
surrounding horizontal whitespace and that `"Content-Length:  5 \r\n"` maps
`content-length` to `"5"`.  On the code, only *leading* whitespace is removed
from the value (`value.erase(0, find_first_not_of(" \t"))`), so the stored
value is `"5 "` with its trailing space, not `"5"`. -/
theorem c3_header_trimming_cex :
    parse_headers_top 10 ("GET / HTTP/1.1\r\nContent-Length:  5 \r\n\r\n".toList)
      = some [("content-length".toList, "5 ".toList)]
    ∧ ("5 ".toList : List Char) ≠ "5".toList := by
  exact ⟨by decide, by decide⟩

/-- C3 amended: for a header line `key ++ ":" ++ value` (first colon the
separator), the parser stores the key lowercased with *trailing* horizontal
whitespace removed (leading kept) and the value with *leading* horizontal
whitespace removed (trailing kept); the last occurrence of a repeated key
wins; the claim's example line yields value `"5 "` (with its trailing
space), not `"5"`. -/
theorem c3_header_normalization_amended :
    (∀ k v : List Char, findCharIdx k ':' = none →
        processHeaderLine (k ++ ':' :: v)
          = some (trimTrailingHWS (k.map toLowerAscii), trimLeadingHWS v))
    ∧ (∀ (hs : Headers) (k v1 v2 : List Char),
        mapFind (mapInsert (mapInsert hs k v1) k v2) k = some v2)
    ∧ parse_headers_top 10 ("GET / HTTP/1.1\r\nContent-Length:  5 \r\n\r\n".toList)
        = some [("content-length".toList, "5 ".toList)] := by
  refine ⟨?_, ?_, by decide⟩
  · intro k v hk
    simp only [processHeaderLine, findCharIdx_append k v hk, List.take_left]
    rw [show (k ++ ':' :: v).drop (k.length + 1) = v from by
      have h := @List.drop_append Char k (':' :: v) 1
      simp only [List.drop_succ_cons, List.drop_zero] at h
      exact h]
  · intro hs k v1 v2
    exact mapFind_mapInsert (mapInsert hs k v1) k v2

/-- C3 witness: the amended statement evaluated at the claim's example line
and at a concrete repeated key. -/
theorem c3_header_normalization_amended_witness :
    processHeaderLine ("Content-Length".toList ++ ':' :: "  5 ".toList)
      = some ("content-length".toList, "5 ".toList)
    ∧ mapFind (mapInsert (mapInsert [] ("a".toList) ("1".toList)) ("a".toList) ("2".toList))
        ("a".toList) = some ("2".toList) := by
  constructor
  · have h := c3_header_normalization_amended.1 ("Content-Length".toList) ("  5 ".toList)
      (by decide)
    rw [h]
    decide
  · exact c3_header_normalization_amended.2.1 [] ("a".toList) ("1".toList) ("2".toList)

/-- C2 counterexample: the claim says that when `transfer-encoding` is
present with a value other than `chunked` and `content-length` is also
present, the body is read via `read_fixed` of that length.  On the code the
`else if` on `content-length` is skipped whenever `transfer-encoding` is
present, so for a request with `Transfer-Encoding: gzip`,
`Content-Length: 5` and the 5 available bytes `"hello"`, the parsed body is
empty, not `"hello"`. -/
theorem c2_te_nonchunked_cex :
    HttpMessage.parse 30 DEFAULT_BUFSIZE [c2hdrTE ++ "hello".toList]
      = some (.ok ⟨"POST / H".toList,
          [("transfer-encoding".toList, "gzip".toList),
           ("content-length".toList, "5".toList)], []⟩)
    ∧ ([] : List Char) ≠ "hello".toList := by
  exact ⟨by decide, by decide⟩

/-- C2 amended: body framing as the code selects it — when
`transfer-encoding` is present the body is `read_chunked()` if its value is
`chunked` and *empty* otherwise (`content-length` is ignored in that case);
only when `transfer-encoding` is absent does a present `content-length`
drive `read_fixed` of the parsed length; with neither header the body is
empty.  The last three conjuncts run the full parser on streams for each
framing mode. -/
theorem c2_body_framing_amended :
    (∀ (f : Nat) (hs : Headers) (s : RState),
        mapContains hs ("transfer-encoding".toList) = true →
        mapFindD hs ("transfer-encoding".toList) ≠ "chunked".toList →
        selectBody f hs s = some (.ok []))
    ∧ (∀ (f : Nat) (hs : Headers) (s s2 : RState) (b : List Char),
        mapContains hs ("transfer-encoding".toList) = true →
        mapFindD hs ("transfer-encoding".toList) = "chunked".toList →
        read_chunked f [] s = some (.ok (b, s2)) →
        selectBody f hs s = some (.ok b))
    ∧ (∀ (f n : Nat) (hs : Headers) (s s2 : RState) (b : List Char),
        mapContains hs ("transfer-encoding".toList) = false →
        mapContains hs ("content-length".toList) = true →
        stoul10 (mapFindD hs ("content-length".toList)) = some n →
        read_fixed f n [] s = some (.ok (b, s2)) →
        selectBody f hs s = some (.ok b))
    ∧ (∀ (f : Nat) (hs : Headers) (s : RState),
        mapContains hs ("transfer-encoding".toList) = false →
        mapContains hs ("content-length".toList) = false →
        selectBody f hs s = some (.ok []))
    ∧ (∀ body : List Char, body.length = 5 →
        findSub (c2hdrTE ++ body) crlf2 = some 52 →
        HttpMessage.parse 30 DEFAULT_BUFSIZE [c2hdrTE ++ body]
          = some (.ok ⟨"POST / H".toList,
              [("transfer-encoding".toList, "gzip".toList),
               ("content-length".toList, "5".toList)], []⟩))
    ∧ (∀ body : List Char, body.length = 5 →
        findSub (c2hdrCL ++ body) crlf2 = some 27 →
        HttpMessage.parse 30 DEFAULT_BUFSIZE [c2hdrCL ++ body]
          = some (.ok ⟨"POST / H".toList, [("content-length".toList, "5".toList)], body⟩))
    ∧ HttpMessage.parse 50 DEFAULT_BUFSIZE
        ["POST / H\r\nTransfer-Encoding: chunked\r\n\r\n4\r\nWiki\r\n0\r\n\r\n".toList]
        = some (.ok ⟨"POST / H".toList,
            [("transfer-encoding".toList, "chunked".toList)], "Wiki".toList⟩) := by
  refine ⟨selectBody_te_other, selectBody_te_chunked, selectBody_cl, selectBody_none,
    ?_, ?_, by decide⟩
  · intro body hlen hfind
    have hL : c2hdrTE ++ body ≠ [] := fun hnil =>
      absurd (List.append_eq_nil.mp hnil).1 (by decide)
    have hru : read_until 30 crlf2 [] ⟨[c2hdrTE ++ body], DEFAULT_BUFSIZE, [], 0⟩
        = some ((c2hdrTE ++ body).take (52 + crlf2.length),
            ⟨[], DEFAULT_BUFSIZE, c2hdrTE ++ body, 52 + crlf2.length⟩) :=
      read_until_fresh_found 28 DEFAULT_BUFSIZE 52 crlf2 (c2hdrTE ++ body) [] (by decide)
        (by decide) hL hfind
    rw [show (c2hdrTE ++ body).take (52 + crlf2.length) = c2hdrTE from by
      rw [show 52 + crlf2.length = c2hdrTE.length from by decide, List.take_left]] at hru
    exact parse_unfolds 30 DEFAULT_BUFSIZE [c2hdrTE ++ body] c2hdrTE ("POST / H".toList) []
      ⟨[], DEFAULT_BUFSIZE, c2hdrTE ++ body, 52 + crlf2.length⟩
      [("transfer-encoding".toList, "gzip".toList), ("content-length".toList, "5".toList)]
      hru (by decide) (by decide)
      (selectBody_te_other 30 _ _ (by decide) (by decide))
  · intro body hlen hfind
    have hL : c2hdrCL ++ body ≠ [] := fun hnil =>
      absurd (List.append_eq_nil.mp hnil).1 (by decide)
    have hru : read_until 30 crlf2 [] ⟨[c2hdrCL ++ body], DEFAULT_BUFSIZE, [], 0⟩
        = some ((c2hdrCL ++ body).take (27 + crlf2.length),
            ⟨[], DEFAULT_BUFSIZE, c2hdrCL ++ body, 27 + crlf2.length⟩) :=
      read_until_fresh_found 28 DEFAULT_BUFSIZE 27 crlf2 (c2hdrCL ++ body) [] (by decide)
        (by decide) hL hfind
    rw [show (c2hdrCL ++ body).take (27 + crlf2.length) = c2hdrCL from by
      rw [show 27 + crlf2.length = c2hdrCL.length from by decide, List.take_left]] at hru
    have hrf : read_fixed 30 5 [] ⟨[], DEFAULT_BUFSIZE, c2hdrCL ++ body, 27 + crlf2.length⟩
        = some (.ok (body,
            ⟨[], DEFAULT_BUFSIZE, c2hdrCL ++ body, 27 + crlf2.length + 5⟩)) := by
      have h : read_fixed 30 5 [] ⟨[], DEFAULT_BUFSIZE, c2hdrCL ++ body, 27 + crlf2.length⟩
          = some (.ok (((c2hdrCL ++ body).drop (27 + crlf2.length)).take 5,
              ⟨[], DEFAULT_BUFSIZE, c2hdrCL ++ body, 27 + crlf2.length + 5⟩)) :=
        read_fixed_one_window 28 5 ⟨[], DEFAULT_BUFSIZE, c2hdrCL ++ body, 27 + crlf2.length⟩
          (by decide)
          (by show 27 + crlf2.length < DEFAULT_BUFSIZE; decide)
          (by show 27 + crlf2.length + 5 ≤ (c2hdrCL ++ body).length
              rw [List.length_append, hlen]
              decide)
      rw [show ((c2hdrCL ++ body).drop (27 + crlf2.length)).take 5 = body from by
        rw [show 27 + crlf2.length = c2hdrCL.length from by decide, List.drop_left, ← hlen,
          List.take_length]] at h
      exact h
    exact parse_unfolds 30 DEFAULT_BUFSIZE [c2hdrCL ++ body] c2hdrCL ("POST / H".toList) body
      ⟨[], DEFAULT_BUFSIZE, c2hdrCL ++ body, 27 + crlf2.length⟩
      [("content-length".toList, "5".toList)]
      hru (by decide) (by decide)
      (selectBody_cl 30 5 _ _ _ body (by decide) (by decide) (by decide) hrf)

/-- C2 witness: the amended end-to-end conjuncts at concrete bodies. -/
theorem c2_body_framing_amended_witness :
    HttpMessage.parse 30 DEFAULT_BUFSIZE [c2hdrTE ++ "hello".toList]
      = some (.ok ⟨"POST / H".toList,
          [("transfer-encoding".toList, "gzip".toList),
           ("content-length".toList, "5".toList)], []⟩)
    ∧ HttpMessage.parse 30 DEFAULT_BUFSIZE [c2hdrCL ++ "world".toList]
      = some (.ok ⟨"POST / H".toList, [("content-length".toList, "5".toList)],
          "world".toList⟩) :=
  ⟨c2_body_framing_amended.2.2.2.2.1 ("hello".toList) (by decide) (by decide),
   c2_body_framing_amended.2.2.2.2.2.1 ("world".toList) (by decide) (by decide)⟩

/-- C5 counterexample: the claim says every response the server writes —
including the best-effort 500 — has the form
`HTTP/1.1 <status> <reason>\r\nContent-Type: text/plain\r\nContent-Length:
<n>\r\nConnection: close\r\n\r\n<body>`.  The 500 response actually written
from the catch blocks contains no `Content-Type` header at all, while every
instance of the claimed form contains the substring `Content-Type` — so the
500 response is not of the claimed form for any status, reason or body. -/
theorem c5_error500_lacks_content_type_cex :
    ¬ ("Content-Type".toList <:+: error500Wire)
    ∧ ∀ (st : Int) (r b : List Char), "Content-Type".toList <:+: claimResponseForm st r b := by
  constructor
  · decide
  · intro st r b
    refine ⟨"HTTP/1.1 ".toList ++ (intChars st ++ (" ".toList ++ (r ++ "\r\n".toList))),
            ": text/plain\r\nContent-Length: ".toList
              ++ (natChars b.length ++ ("\r\nConnection: close\r\n\r\n".toList ++ b)), ?_⟩
    simp only [claimResponseForm,
      show ("\r\nContent-Type: text/plain\r\nContent-Length: ".toList : List Char)
          = "\r\n".toList ++ ("Content-Type".toList
            ++ ": text/plain\r\nContent-Length: ".toList)
        from by decide]
    simp [List.append_assoc]

/-- C5 amended: success responses have exactly the claimed form with status
200 and reason `OK`, echoing the parsed body byte for byte with a matching
`Content-Length`; any parse failure produces the fixed 500 response, which
*omits* the `Content-Type` header; `Http::get_status_message` maps
200/400/404/500 to OK/Bad Request/Not Found/Internal Server Error and every
other status to `Unknown`. -/
theorem c5_response_format_amended :
    (∀ b : List Char, successResponseWire b = claimResponseForm 200 ("OK".toList) b)
    ∧ (∀ (f cap : Nat) (chunks : List (List Char)) (msg : HttpMessage),
        HttpMessage.parse f cap chunks = some (.ok msg) →
        handle_connection_wire f cap chunks
          = some (claimResponseForm 200 ("OK".toList) msg.body))
    ∧ (∀ (f cap : Nat) (chunks : List (List Char)) (e : RErr),
        HttpMessage.parse f cap chunks = some (.error e) →
        handle_connection_wire f cap chunks = some error500Wire)
    ∧ get_status_message 200 = "OK".toList
    ∧ get_status_message 400 = "Bad Request".toList
    ∧ get_status_message 404 = "Not Found".toList
    ∧ get_status_message 500 = "Internal Server Error".toList
    ∧ (∀ st : Int, st ≠ 200 → st ≠ 400 → st ≠ 404 → st ≠ 500 →
        get_status_message st = "Unknown".toList) := by
  have hform : ∀ b : List Char, successResponseWire b = claimResponseForm 200 ("OK".toList) b := by
    intro b
    simp only [successResponseWire, successHeadersWire, claimResponseForm]
    rw [show ("HTTP/1.1 ".toList
          ++ (intChars 200 ++ (" ".toList ++ ("OK".toList
            ++ "\r\nContent-Type: text/plain\r\nContent-Length: ".toList))))
        = "HTTP/1.1 200 OK\r\nContent-Type: text/plain\r\nContent-Length: ".toList
      from by decide]
    simp [List.append_assoc]
  refine ⟨hform, ?_, ?_, by decide, by decide, by decide, by decide, ?_⟩
  · intro f cap chunks msg hp
    simp only [handle_connection_wire, hp, hform msg.body]
  · intro f cap chunks e hp
    simp only [handle_connection_wire, hp]
  · intro st h1 h2 h3 h4
    simp only [get_status_message, if_neg h1, if_neg h2, if_neg h3, if_neg h4]

/-- C5 witness: the amended statement at a concrete parsed request and a
concrete unmapped status. -/
theorem c5_response_format_amended_witness :
    handle_connection_wire 30 DEFAULT_BUFSIZE ["GET / H\r\nHost: x\r\n\r\n".toList]
      = some (claimResponseForm 200 ("OK".toList) [])
    ∧ get_status_message 201 = "Unknown".toList := by
  constructor
  · exact c5_response_format_amended.2.1 30 DEFAULT_BUFSIZE
      ["GET / H\r\nHost: x\r\n\r\n".toList]
      ⟨"GET / H".toList, [("host".toList, "x".toList)], []⟩ (by decide)
  · exact c5_response_format_amended.2.2.2.2.2.2.2 201 (by decide) (by decide) (by decide)
      (by decide)

/-- C10: `read_chunked` raises the `"Invalid chunk size"` error exactly when
`std::stoul(line, nullptr, 16)` fails on the (CRLF-stripped) size line, i.e.
when the line has no parseable unsigned-long prefix (or the parsed value
overflows, which also throws out of `stoul`).  The general conjunct shows the
error for an arbitrary unparseable first size line; the concrete conjuncts
show that leading whitespace, a `0x` prefix, a sign character, and arbitrary
trailing characters such as chunk extensions are all silently accepted, the
parsed prefix being used as the chunk size. -/
theorem c10_chunk_size_uses_stoul_prefix :
    (∀ (f cap : Nat) (line rest : List Char),
        0 < cap →
        findSub (line ++ (crlf ++ rest)) crlf = some line.length →
        stoul16 line = none →
        read_chunked (f+1+1) [] ⟨[line ++ (crlf ++ rest)], cap, [], 0⟩
          = some (.error .invalidChunkSize))
    ∧ decodeChunkedStream 50 DEFAULT_BUFSIZE [" 4;name=val\r\nWiki\r\n0\r\n\r\n".toList]
        = some (.ok ("Wiki".toList))
    ∧ decodeChunkedStream 50 DEFAULT_BUFSIZE ["0x4\r\nWiki\r\n0\r\n\r\n".toList]
        = some (.ok ("Wiki".toList))
    ∧ decodeChunkedStream 50 DEFAULT_BUFSIZE ["+4\r\nWiki\r\n0\r\n\r\n".toList]
        = some (.ok ("Wiki".toList))
    ∧ decodeChunkedStream 50 DEFAULT_BUFSIZE ["-0\r\n\r\n".toList] = some (.ok [])
    ∧ stoul16 ("zz".toList) = none ∧ stoul16 [] = none := by
  refine ⟨?_, by decide, by decide, by decide, by decide, by decide, by decide⟩
  intro f cap line rest hcap hfind hst
  have hL : line ++ (crlf ++ rest) ≠ [] := by
    intro h
    exact absurd (List.append_eq_nil.mp (List.append_eq_nil.mp h).2).1 (by decide)
  have hru : read_until (f+1+1) crlf [] ⟨[line ++ (crlf ++ rest)], cap, [], 0⟩
      = some ((line ++ (crlf ++ rest)).take (line.length + crlf.length),
          ⟨[], cap, line ++ (crlf ++ rest), line.length + crlf.length⟩) :=
    read_until_fresh_found f cap line.length crlf (line ++ (crlf ++ rest)) [] hcap
      (by decide) hL hfind
  rw [show (line ++ (crlf ++ rest)).take (line.length + crlf.length) = line ++ crlf from by
    rw [List.take_append, List.take_left]] at hru
  have hlen2 : ¬ (line ++ crlf).length < 2 := by
    simp only [List.length_append, crlf, List.length_cons, List.length_nil]
    omega
  have hline : stoul16 ((line ++ crlf).take ((line ++ crlf).length - 2)) = none := by
    rw [List.length_append, show (crlf.length : Nat) = 2 from rfl, Nat.add_sub_cancel,
      List.take_left]
    exact hst
  exact read_chunked_invalid_of_stoul_none (f+1) [] _ _ (line ++ crlf) hru hlen2 hline

/-- C10 witness: the general conjunct instantiated at the unparseable size
line `"QQ"`. -/
theorem c10_chunk_size_uses_stoul_prefix_witness :
    read_chunked 2 [] ⟨["QQ".toList ++ (crlf ++ [])], DEFAULT_BUFSIZE, [], 0⟩
      = some (.error .invalidChunkSize) :=
  c10_chunk_size_uses_stoul_prefix.1 0 DEFAULT_BUFSIZE ("QQ".toList) [] (by decide)
    (by decide) (by decide)
